import Mathlib

/-
Verification of the PeteteBot voice-activity segmentation pipeline.

Shallow embedding of the relevant parts of src/bot.py, src/bot2.py and
src/old.bot.py:
  - the Frame value and the VAD segment collector `vad_collector` (bot2.py,
    lines 56-135), embedded as an explicit state machine over lists;
  - the frame slicer `frame_generator` (bot2.py, lines 63-86);
  - the silence-threshold sink state machine `VoiceTranslatorSink.write`
    (bot.py, lines 162-181), which keeps one shared speaking buffer;
  - the exception behaviour of bot2.py's `VoiceTranslatorSink.write`
    (lines 248-264), where a classifier failure aborts the whole call;
  - the length computation of `_resample` (bot.py lines 183-191);
  - `AudioProcessor` / `MySink.cleanup` from old.bot.py (lines 37-96);
  - `Config.get` (bot.py lines 41-49 / bot2.py lines 46-54).

Machine reals from Python are embedded as exact rational / natural
arithmetic; each definition's doc comment notes where the Python value is a
float and why the exact comparison coincides on the configurations used.
Byte strings are `List Nat`; audio frame timestamps and durations (Python
floats, unused by any verified property) are omitted from the Frame value.
-/

/-- A frame of audio data (class `Frame` in bot2.py). Only the payload
bytes are kept: `timestamp` and `duration` are Python floats that no
verified property mentions. -/
structure Frame where
  bytes : List Nat
  deriving DecidableEq

/-- State of one `vad_collector` run (bot2.py lines 99-102): the
`collections.deque(maxlen=num_padding_frames)` ring buffer (oldest frame
first), its fixed capacity, the `triggered` flag and the `voiced_frames`
accumulator. -/
structure CollectorState where
  ring : List Frame
  maxlen : Nat
  triggered : Bool
  voiced : List Frame
  deriving DecidableEq

/-- `collections.deque.append` with a `maxlen` bound: appending to a full
deque evicts the oldest element. -/
def deque_append (maxlen : Nat) (buf : List Frame) (f : Frame) : List Frame :=
  let b := buf ++ [f]
  if maxlen < b.length then b.drop (b.length - maxlen) else b

/-- `b''.join([f.bytes for f in fs])` (bot2.py lines 129 and 135). -/
def joinBytes (fs : List Frame) : List Nat :=
  (fs.map Frame.bytes).flatten

/-- One iteration of the `for frame in frames` loop of `vad_collector`
(bot2.py lines 106-131), for a deterministic classifier `isSp` standing
for `vad.is_speech(frame.bytes, sample_rate)`.

The Python thresholds are `num_voiced > 0.9 * ring_buffer.maxlen` and
`num_unvoiced > 0.9 * ring_buffer.maxlen`; they are embedded as the exact
comparison `10 * count > 9 * maxlen`.  For the configured capacity 30 the
double product `0.9 * 30` evaluates to exactly `27.0`, so the float and
the exact comparison agree there. -/
def vad_collector_step (isSp : Frame → Bool) (s : CollectorState) (f : Frame) :
    CollectorState × Option (List Nat) :=
  if s.triggered then
    let voiced' := s.voiced ++ [f]
    let ring' := deque_append s.maxlen s.ring f
    let numUnvoiced := (ring'.filter (fun g => !(isSp g))).length
    if 10 * numUnvoiced > 9 * s.maxlen then
      ({ s with triggered := false, ring := [], voiced := [] }, some (joinBytes voiced'))
    else
      ({ s with ring := ring', voiced := voiced' }, none)
  else
    let ring' := deque_append s.maxlen s.ring f
    let numVoiced := (ring'.filter isSp).length
    if 10 * numVoiced > 9 * s.maxlen then
      ({ s with triggered := true, voiced := s.voiced ++ ring', ring := [] }, none)
    else
      ({ s with ring := ring' }, none)

/-- The whole `for frame in frames` loop of `vad_collector`: final state
together with the segments yielded during the loop, in order. -/
def vad_collector_run (isSp : Frame → Bool) (s : CollectorState) :
    List Frame → CollectorState × List (List Nat)
  | [] => (s, [])
  | f :: fs =>
      ((vad_collector_run isSp (vad_collector_step isSp s f).1 fs).1,
       (vad_collector_step isSp s f).2.toList ++
         (vad_collector_run isSp (vad_collector_step isSp s f).1 fs).2)

/-- The trailing flush of `vad_collector` (bot2.py lines 133-135):
`if voiced_frames: yield b''.join(...)`. -/
def vad_collector_flush (s : CollectorState) : Option (List Nat) :=
  if s.voiced = [] then none else some (joinBytes s.voiced)

/-- Full `vad_collector` on a finite frame stream: loop then flush.
Returns every yielded segment in order. -/
def vad_collector (isSp : Frame → Bool) (s : CollectorState) (frames : List Frame) :
    List (List Nat) :=
  (vad_collector_run isSp s frames).2 ++
    (vad_collector_flush (vad_collector_run isSp s frames).1).toList

/-- Initial collector state (bot2.py lines 99-102):
`num_padding_frames = int(padding_duration_ms / frame_duration_ms)`,
empty ring buffer, `triggered = False`, empty `voiced_frames`.  The Python
quotient is a float division of positive integers truncated by `int`,
embedded as natural division. -/
def initCollector (padding_duration_ms frame_duration_ms : Nat) : CollectorState :=
  { ring := [], maxlen := padding_duration_ms / frame_duration_ms,
    triggered := false, voiced := [] }

/-- The spec's configuration: 900 ms padding at 30 ms frames, capacity 30. -/
def init30 : CollectorState := initCollector 900 30

/-- Deterministic test classifier: a frame is speech iff its first byte
is 1.  Stands for a fixed `webrtcvad.Vad.is_speech` oracle, which the spec
requires to be deterministic for identical bytes. -/
def isSpeechHead (f : Frame) : Bool := f.bytes.headI == 1

/-- A 2-byte frame the test classifier reports as speech. -/
def spFrame : Frame := ⟨[1, 1]⟩

/-- A 2-byte frame the test classifier reports as non-speech. -/
def nsFrame : Frame := ⟨[0, 0]⟩

/-- `frame_generator` (bot2.py lines 63-86): the loop
`while offset + n < len(audio)` emits the slice `audio[offset:offset+n]`
and advances by `n`.  Embedded by recursion on the unread suffix; the
guard `0 < n` reflects that the Python loop does not terminate for
`n = 0`. -/
def frame_generator (n : Nat) (audio : List Nat) : List (List Nat) :=
  if _h : 0 < n ∧ n < audio.length then
    audio.take n :: frame_generator n (audio.drop n)
  else
    []
termination_by audio.length
decreasing_by
  simp only [List.length_drop]
  omega

/-- The frame byte size `n = int(sample_rate * (frame_duration_ms / 1000.0) * 2)`
of bot2.py line 74, with the float product embedded as exact natural
arithmetic truncated by division. -/
def frame_byte_size (sample_rate frame_duration_ms : Nat) : Nat :=
  sample_rate * frame_duration_ms * 2 / 1000

/-- Mutable state of bot.py's `VoiceTranslatorSink` (lines 162-181): ONE
`speaking_buffer` / `silence_duration` / `is_speaking` triple for the whole
sink, shared by every speaker that the transport delivers to `write`.
`threshold` is `self.SILENCE_THRESHOLD`. -/
structure SinkState where
  speaking_buffer : List Nat
  silence_duration : Nat
  is_speaking : Bool
  threshold : Nat
  deriving DecidableEq

/-- One call of bot.py's `VoiceTranslatorSink.write(data, user)`
(lines 162-181).  `isSp` stands for the composition of `_resample` and
`vad.is_speech` applied to the whole chunk; speakers are tagged by a
natural number.  Returns the new state and the utterance handed to
`_process_utterance`, if any, together with the user it is attributed to. -/
def sinkWrite (isSp : List Nat → Bool) (s : SinkState) (data : List Nat) (user : Nat) :
    SinkState × Option (List Nat × Nat) :=
  if isSp data then
    ({ s with silence_duration := 0,
              speaking_buffer := s.speaking_buffer ++ data,
              is_speaking := true }, none)
  else
    if s.threshold ≤ s.silence_duration + 1 ∧ s.is_speaking = true then
      ({ s with silence_duration := s.silence_duration + 1,
                speaking_buffer := [], is_speaking := false },
       some (s.speaking_buffer, user))
    else
      ({ s with silence_duration := s.silence_duration + 1 }, none)

/-- A sequence of `write` calls against the one shared sink, collecting
every emitted (utterance, attributed user) pair in order. -/
def sinkRun (isSp : List Nat → Bool) (s : SinkState) :
    List (List Nat × Nat) → SinkState × List (List Nat × Nat)
  | [] => (s, [])
  | (d, u) :: ws =>
      ((sinkRun isSp (sinkWrite isSp s d u).1 ws).1,
       (sinkWrite isSp s d u).2.toList ++ (sinkRun isSp (sinkWrite isSp s d u).1 ws).2)

/-- Chunk classifier for the sink model: speech iff the first byte is
non-zero. -/
def chunkIsSpeech (c : List Nat) : Bool := c.headI != 0

/-- A freshly constructed sink with silence threshold 1. -/
def sink0 : SinkState :=
  { speaking_buffer := [], silence_duration := 0, is_speaking := false, threshold := 1 }

/-- Whether a classification call succeeded. -/
def isOkE (e : Except Unit Bool) : Bool :=
  match e with
  | .ok _ => true
  | .error _ => false

/-- The value a fallible classifier would have under the spec's fail-safe
rule: a failure is read as non-speech.  This definition follows the
CLAIM's words (fail-safe classification), to be compared with what the
code does; it is not code of the repository. -/
def clsToBool (cls : Frame → Except Unit Bool) (f : Frame) : Bool :=
  match cls f with
  | .ok b => b
  | .error _ => false

/-- `vad_collector`'s loop when `vad.is_speech` may raise (modelled as
`Except`): every incoming frame is classified first (bot2.py line 107) and
the ring buffer is re-classified by the list comprehensions of lines 112
and 123, so a raise at any of those calls aborts the generator.  Returns
the state reached, the segments yielded before the raise, and whether a
raise occurred.  On the no-raise path each step agrees with
`vad_collector_step` under `clsToBool cls`, because every classification
consulted then succeeds. -/
def vadRunExc (cls : Frame → Except Unit Bool) (s : CollectorState) :
    List Frame → CollectorState × List (List Nat) × Bool
  | [] => (s, [], false)
  | f :: fs =>
    match cls f with
    | .error _ => (s, [], true)
    | .ok _ =>
      if (deque_append s.maxlen s.ring f).all (fun g => isOkE (cls g)) then
        ((vadRunExc cls (vad_collector_step (clsToBool cls) s f).1 fs).1,
         (vad_collector_step (clsToBool cls) s f).2.toList ++
           (vadRunExc cls (vad_collector_step (clsToBool cls) s f).1 fs).2.1,
         (vadRunExc cls (vad_collector_step (clsToBool cls) s f).1 fs).2.2)
      else (s, [], true)

/-- bot2.py's `VoiceTranslatorSink.write` (lines 248-264) as seen from the
frame stream: the `for segment in segments` loop dispatches each yielded
segment; an exception raised inside the generator is caught by the
`try/except`, logged, and swallowed, so the segments dispatched before the
raise are kept, the rest of the input is abandoned, and the trailing flush
(which only runs when the generator finishes normally) is skipped. -/
def writeB2 (cls : Frame → Except Unit Bool) (s : CollectorState) (frames : List Frame) :
    List (List Nat) :=
  if (vadRunExc cls s frames).2.2 then
    (vadRunExc cls s frames).2.1
  else
    (vadRunExc cls s frames).2.1 ++
      (vad_collector_flush (vadRunExc cls s frames).1).toList

/-- A fallible test classifier: frames whose first byte is 2 make the
classification primitive raise; otherwise speech iff the first byte is 1. -/
def clsErr (f : Frame) : Except Unit Bool :=
  if f.bytes.headI = 2 then .error () else .ok (f.bytes.headI == 1)

/-- The collector configured with 90 ms padding at 30 ms frames
(capacity 3), used for concrete error-path runs. -/
def init3 : CollectorState := initCollector 90 30

/-- Speech prefix for the error-path run: three 1-byte speech frames. -/
def preC5 : List Frame := List.replicate 3 ⟨[1]⟩

/-- A frame on which `clsErr` raises. -/
def errFrame : Frame := ⟨[2]⟩

/-- Non-speech tail for the error-path run. -/
def postC5 : List Frame := List.replicate 3 ⟨[0]⟩

/-- The write call under the claim's fail-safe semantics: the failing
frame is classified non-speech and processing continues, including the
trailing flush.  This definition follows the CLAIM's words, for comparison
with `writeB2`. -/
def writeFailSafe (cls : Frame → Except Unit Bool) (s : CollectorState)
    (frames : List Frame) : List (List Nat) :=
  vad_collector (clsToBool cls) s frames

/-- The output length of `_resample` (bot.py lines 183-191):
`duration = len(audio_data) / orig_rate` then
`target_length = int(duration * target_rate)`, i.e. truncation of
`n / orig * target`.  Embedded with exact rational arithmetic as
`n * target / orig` in natural (floor) division; the counterexample below
uses values on which the Python doubles are exact. -/
def resample_target_length (n origRate targetRate : Nat) : Nat :=
  n * targetRate / origRate

/-- State of old.bot.py's `AudioProcessor` (lines 37-59): the list of
speech chunks accumulated in `audio_buffer`, the running `silence_frames`
count and the configured `max_silence_frames`. -/
structure ProcState where
  audio_buffer : List (List Nat)
  silence_frames : Nat
  max_silence_frames : Nat
  deriving DecidableEq

/-- old.bot.py's `MySink.cleanup` (lines 94-96):
`if self.processor.audio_buffer: self.processor.transcribe_audio()`.
`transcribe_audio` joins and ships the buffer and mutates nothing, so the
state is returned unchanged in both branches. -/
def procCleanup (s : ProcState) : ProcState × Option (List Nat) :=
  if s.audio_buffer = [] then (s, none) else (s, some s.audio_buffer.flatten)

/-- A JSON value as loaded by `json.load`, for the `Config.get` model. -/
inductive JValue where
  | null
  | bool (b : Bool)
  | num (n : Int)
  | str (s : String)
  | arr (xs : List JValue)
  | obj (fields : List (String × JValue))

/-- The two exception classes Python's `value[key]` (string key) can raise
and `Config.get` catches: `KeyError` from a dict without the key,
`TypeError` from any non-dict value. -/
inductive PyErr where
  | keyError
  | typeError
  deriving DecidableEq

/-- Python's `value[key]` for a string key: a dict either yields the entry
or raises `KeyError`; every other JSON value raises `TypeError`. -/
def subscript : JValue → String → Except PyErr JValue
  | .obj fields, k =>
      match fields.lookup k with
      | some v => .ok v
      | none => .error .keyError
  | _, _ => .error .typeError

/-- The `for key in path.split('.')` loop body of `Config.get`
(bot2.py lines 46-54): successive subscripts, propagating the first
exception. -/
def getPath : JValue → List String → Except PyErr JValue
  | v, [] => .ok v
  | v, k :: ks =>
      match subscript v k with
      | .ok v' => getPath v' ks
      | .error e => .error e

/-- `Config.get(path, default)` (bot.py lines 41-49 / bot2.py lines 46-54):
walk the dot-separated path, returning `default` on `KeyError` or
`TypeError`.  The omitted Python default `None` corresponds to
`JValue.null`. -/
def Config.get (cfg : JValue) (path : String) (dflt : JValue) : JValue :=
  match getPath cfg (path.splitOn ".") with
  | .ok v => v
  | .error _ => dflt

/-- Resolution through nested dictionaries only, written from the CLAIM's
words ("every dot-separated key of the path resolves through nested
dictionaries"): `some` exactly when each key finds an entry of a dict. -/
def resolves : JValue → List String → Option JValue
  | v, [] => some v
  | .obj fields, k :: ks =>
      match fields.lookup k with
      | some v => resolves v ks
      | none => none
  | _, _ :: _ => none

/-- Every element of a bounded deque after an append was already in the
deque or is the appended element. -/
theorem mem_deque_append {m : Nat} {buf : List Frame} {f g : Frame}
    (h : g ∈ deque_append m buf f) : g ∈ buf ∨ g = f := by
  unfold deque_append at h
  simp only at h
  split at h
  · have := List.mem_of_mem_drop h
    simpa using this
  · simpa using h

/-- A bounded deque append never leaves more than `maxlen` elements. -/
theorem deque_append_length_le (m : Nat) (buf : List Frame) (f : Frame) :
    (deque_append m buf f).length ≤ m := by
  unfold deque_append
  simp only
  split
  · simp only [List.length_drop]
    omega
  · simp only [List.length_append, List.length_singleton] at *
    omega

/-- A collector step never changes the configured ring capacity. -/
theorem step_maxlen (isSp : Frame → Bool) (s : CollectorState) (f : Frame) :
    ((vad_collector_step isSp s f).1).maxlen = s.maxlen := by
  unfold vad_collector_step
  split <;> (dsimp only; split) <;> rfl

/-- After any collector step the ring buffer holds at most `maxlen`
frames, whatever the incoming state held. -/
theorem step_ring_le (isSp : Frame → Bool) (s : CollectorState) (f : Frame) :
    ((vad_collector_step isSp s f).1).ring.length ≤ s.maxlen := by
  unfold vad_collector_step
  split <;> (dsimp only; split) <;> first
    | (simp; done)
    | simpa using deque_append_length_le s.maxlen s.ring f

/-- A collector run never changes the configured ring capacity. -/
theorem run_maxlen (isSp : Frame → Bool) (fs : List Frame) : ∀ s : CollectorState,
    ((vad_collector_run isSp s fs).1).maxlen = s.maxlen := by
  induction fs with
  | nil => intro s; rfl
  | cons f fs ih =>
      intro s
      simp only [vad_collector_run]
      rw [ih, step_maxlen]

/-- The ring-buffer bound is preserved by an entire collector run. -/
theorem run_ring_le (isSp : Frame → Bool) (fs : List Frame) : ∀ s : CollectorState,
    s.ring.length ≤ s.maxlen →
    ((vad_collector_run isSp s fs).1).ring.length ≤ s.maxlen := by
  induction fs with
  | nil => intro s h; exact h
  | cons f fs ih =>
      intro s h
      simp only [vad_collector_run]
      have h1 := ih (vad_collector_step isSp s f).1
        (by rw [step_maxlen]; exact step_ring_le isSp s f)
      rwa [step_maxlen] at h1

/-- A non-speech frame arriving in the untriggered state with an
all-non-speech ring only enlarges the ring: no trigger, no yield. -/
theorem step_nonspeech (isSp : Frame → Bool) (s : CollectorState) (f : Frame)
    (ht : s.triggered = false) (hf : isSp f = false)
    (hring : ∀ g ∈ s.ring, isSp g = false) :
    (vad_collector_step isSp s f).1 =
      { s with ring := deque_append s.maxlen s.ring f } ∧
    (vad_collector_step isSp s f).2 = none := by
  have hfilter : (deque_append s.maxlen s.ring f).filter isSp = [] := by
    rw [List.filter_eq_nil_iff]
    intro g hg
    rcases mem_deque_append hg with h | rfl
    · simp [hring g h]
    · simp [hf]
  unfold vad_collector_step
  rw [ht]
  simp [hfilter]

/-- Feeding only non-speech frames to an untriggered collector whose ring
holds only non-speech frames never triggers, never yields, and leaves the
voiced accumulator untouched. -/
theorem run_all_nonspeech (isSp : Frame → Bool) (fs : List Frame) :
    ∀ s : CollectorState, s.triggered = false →
    (∀ g ∈ fs, isSp g = false) → (∀ g ∈ s.ring, isSp g = false) →
    (vad_collector_run isSp s fs).1.triggered = false ∧
    (vad_collector_run isSp s fs).1.voiced = s.voiced ∧
    (vad_collector_run isSp s fs).2 = [] ∧
    (∀ g ∈ (vad_collector_run isSp s fs).1.ring, isSp g = false) := by
  induction fs with
  | nil =>
      intro s ht _ hring
      exact ⟨ht, rfl, rfl, hring⟩
  | cons f fs ih =>
      intro s ht hfs hring
      have hf : isSp f = false := hfs f (List.mem_cons_self f fs)
      have hstep := step_nonspeech isSp s f ht hf hring
      have hring' : ∀ g ∈ (vad_collector_step isSp s f).1.ring, isSp g = false := by
        rw [hstep.1]
        intro g hg
        rcases mem_deque_append hg with h | rfl
        · exact hring g h
        · exact hf
      have ht' : (vad_collector_step isSp s f).1.triggered = false := by
        rw [hstep.1]; exact ht
      have ihs := ih (vad_collector_step isSp s f).1 ht'
        (fun g hg => hfs g (List.mem_cons_of_mem f hg)) hring'
      simp only [vad_collector_run]
      refine ⟨ihs.1, ?_, ?_, ihs.2.2.2⟩
      · rw [ihs.2.1, hstep.1]
      · rw [hstep.2, ihs.2.2.1]
        rfl

/-- Frame count of the slicer: `while offset + n < len(audio)` emits one
frame per full window that leaves at least one unread byte behind, which
is `(L - 1) / n` frames, not `L / n`. -/
theorem frame_generator_length (n : Nat) (hn : 0 < n) (audio : List Nat) :
    (frame_generator n audio).length = (audio.length - 1) / n := by
  induction audio using frame_generator.induct n with
  | case1 audio h ih =>
      rw [frame_generator, dif_pos h]
      simp only [List.length_cons, ih]
      simp only [List.length_drop]
      have h2 : audio.length - n - 1 + n = audio.length - 1 := by omega
      rw [← h2, Nat.add_div_right _ hn]
  | case2 audio h =>
      rw [frame_generator, dif_neg h]
      have : audio.length - 1 < n := by
        rcases Nat.lt_or_ge audio.length (n + 1) with h1 | h1
        · omega
        · exact absurd ⟨hn, by omega⟩ h
      simp [Nat.div_eq_of_lt this]

/-- Every emitted frame is exactly `n` bytes long. -/
theorem frame_generator_frames (n : Nat) (audio : List Nat) :
    ∀ fr ∈ frame_generator n audio, fr.length = n := by
  induction audio using frame_generator.induct n with
  | case1 audio h ih =>
      rw [frame_generator, dif_pos h]
      intro fr hfr
      rcases List.mem_cons.mp hfr with rfl | hfr
      · exact List.length_take_of_le (Nat.le_of_lt h.2)
      · exact ih fr hfr
  | case2 audio h =>
      rw [frame_generator, dif_neg h]
      intro fr hfr
      exact absurd hfr (List.not_mem_nil fr)

/-- The emitted frames, concatenated, are exactly the leading bytes of
the input: no byte is lost or duplicated among the frames. -/
theorem frame_generator_flatten (n : Nat) (audio : List Nat) :
    (frame_generator n audio).flatten =
      audio.take (n * (frame_generator n audio).length) := by
  induction audio using frame_generator.induct n with
  | case1 audio h ih =>
      rw [frame_generator, dif_pos h]
      simp only [List.flatten_cons, List.length_cons, ih]
      rw [Nat.mul_succ, Nat.add_comm, List.take_add]
  | case2 audio h =>
      rw [frame_generator, dif_neg h]
      simp

/-- On every non-empty input at least one trailing byte is never emitted:
the slicer keeps no state, so that remainder is discarded, not carried to
the next chunk. -/
theorem frame_generator_lost (n : Nat) (hn : 0 < n) (audio : List Nat)
    (hne : audio ≠ []) :
    n * (frame_generator n audio).length < audio.length := by
  rw [frame_generator_length n hn audio]
  have hlen : 0 < audio.length := List.length_pos.mpr hne
  have h1 : (audio.length - 1) / n * n ≤ audio.length - 1 := Nat.div_mul_le_self _ _
  calc n * ((audio.length - 1) / n) = (audio.length - 1) / n * n := Nat.mul_comm _ _
    _ ≤ audio.length - 1 := h1
    _ < audio.length := by omega

/-- A collector step keeps the ring classifiable: every frame of the new
ring is either an old ring frame or the frame just classified. -/
theorem step_ring_ok (cls : Frame → Except Unit Bool) (isSp : Frame → Bool)
    (s : CollectorState) (f : Frame)
    (hring : ∀ g ∈ s.ring, isOkE (cls g) = true) (hf : isOkE (cls f) = true) :
    ∀ g ∈ (vad_collector_step isSp s f).1.ring, isOkE (cls g) = true := by
  intro g hg
  have hsub : (vad_collector_step isSp s f).1.ring = [] ∨
      (vad_collector_step isSp s f).1.ring = deque_append s.maxlen s.ring f := by
    unfold vad_collector_step
    split <;> (dsimp only; split) <;> simp
  rcases hsub with he | he
  · rw [he] at hg
    exact absurd hg (List.not_mem_nil g)
  · rw [he] at hg
    rcases mem_deque_append hg with h | rfl
    · exact hring g h
    · exact hf

/-- While every classification succeeds, the exception-aware loop agrees
with the deterministic collector loop and does not raise. -/
theorem vadRunExc_append (cls : Frame → Except Unit Bool) (pre : List Frame)
    (rest : List Frame) : ∀ s : CollectorState,
    (∀ g ∈ pre, isOkE (cls g) = true) →
    (∀ g ∈ s.ring, isOkE (cls g) = true) →
    vadRunExc cls s (pre ++ rest) =
      ((vadRunExc cls (vad_collector_run (clsToBool cls) s pre).1 rest).1,
       (vad_collector_run (clsToBool cls) s pre).2 ++
         (vadRunExc cls (vad_collector_run (clsToBool cls) s pre).1 rest).2.1,
       (vadRunExc cls (vad_collector_run (clsToBool cls) s pre).1 rest).2.2) := by
  induction pre with
  | nil =>
      intro s _ _
      simp [vad_collector_run]
  | cons f fs ih =>
      intro s hpre hring
      have hf : isOkE (cls f) = true := hpre f (List.mem_cons_self f fs)
      have hall : (deque_append s.maxlen s.ring f).all (fun g => isOkE (cls g)) = true := by
        rw [List.all_eq_true]
        intro g hg
        rcases mem_deque_append hg with h | rfl
        · exact hring g h
        · exact hf
      obtain ⟨b, hb⟩ : ∃ b, cls f = .ok b := by
        cases hcf : cls f with
        | ok b => exact ⟨b, rfl⟩
        | error e => rw [hcf] at hf; exact absurd hf (by simp [isOkE])
      have hring' := step_ring_ok cls (clsToBool cls) s f hring hf
      have ihs := ih (vad_collector_step (clsToBool cls) s f).1
        (fun g hg => hpre g (List.mem_cons_of_mem f hg)) hring'
      simp only [List.cons_append, vadRunExc, hb, hall, if_true, List.append_eq, ihs,
        vad_collector_run, List.append_assoc]

/-- The exception-aware loop aborts immediately on a frame whose
classification raises: nothing further is yielded. -/
theorem vadRunExc_error (cls : Frame → Except Unit Bool) (s : CollectorState)
    (f : Frame) (post : List Frame) (hf : cls f = .error ()) :
    vadRunExc cls s (f :: post) = (s, [], true) := by
  simp only [vadRunExc, hf]

/-- `Config.get`'s traversal agrees with pure nested-dictionary
resolution: the value when the whole path resolves, the default on the
first `KeyError` or `TypeError`. -/
theorem getPath_resolves (dflt : JValue) (ks : List String) : ∀ v : JValue,
    (match getPath v ks with
     | .ok r => r
     | .error _ => dflt) = (resolves v ks).getD dflt := by
  induction ks with
  | nil => intro v; cases v <;> rfl
  | cons k ks ih =>
      intro v
      cases v with
      | obj fields =>
          simp only [getPath, resolves, subscript]
          cases fields.lookup k with
          | some v' => exact ih v'
          | none => rfl
      | null => rfl
      | bool b => rfl
      | num n => rfl
      | str s => rfl
      | arr xs => rfl

set_option maxRecDepth 10000 in
/-- C1 counterexample: with the 30-frame ring and the code's thresholds,
30 consecutive speech frames do trigger, but 27 subsequent non-speech
frames do NOT return the collector to the untriggered state and emit NO
segment, contradicting the claim at this concrete input. -/
theorem C1_counterexample :
    (vad_collector_run isSpeechHead init30
        (List.replicate 30 spFrame ++ List.replicate 27 nsFrame)).1.triggered = true ∧
    (vad_collector_run isSpeechHead init30
        (List.replicate 30 spFrame ++ List.replicate 27 nsFrame)).2 = [] := by
  decide

set_option maxRecDepth 10000 in
/-- C1 (amended): 30 consecutive speech frames put the collector in the
triggered state (the trigger fires at the 28th, when the speech count
first exceeds 0.9 x 30 = 27); 28 subsequent non-speech frames (the least
count whose non-speech tally exceeds 27) transition back to untriggered
and emit exactly one segment, whose byte length is the combined byte
length of all 58 frames fed while collecting - the 30 speech frames plus
the 28 non-speech hangover frames - because the triggered state appends
every frame, speech or not, to the voiced accumulator. -/
theorem C1_amended :
    (vad_collector_run isSpeechHead init30 (List.replicate 30 spFrame)).1.triggered = true ∧
    (vad_collector_run isSpeechHead init30
        (List.replicate 30 spFrame ++ List.replicate 28 nsFrame)).1.triggered = false ∧
    (vad_collector_run isSpeechHead init30
        (List.replicate 30 spFrame ++ List.replicate 28 nsFrame)).2.length = 1 ∧
    ((vad_collector_run isSpeechHead init30
        (List.replicate 30 spFrame ++ List.replicate 28 nsFrame)).2.headI).length
      = 58 * spFrame.bytes.length := by
  decide

/-- C2 counterexample: with frame size 2, an input of 4 bytes yields one
frame, not floor(4/2) = 2, because the loop guard `offset + n < len` is
strict; and slicing the chunk [5,6,7] and then the chunk [8] yields only
the frame [5,6] - the remainder byte 7 is not prepended to the next
chunk, so the frames [5,6] and [7,8] predicted by the claim never
appear. -/
theorem C2_counterexample :
    (frame_generator 2 [0, 0, 0, 0]).length ≠ 4 / 2 ∧
    frame_generator 2 [5, 6, 7] ++ frame_generator 2 [8] ≠ [[5, 6], [7, 8]] := by
  have e1 : (frame_generator 2 [0, 0, 0, 0]).length = 1 := by
    rw [frame_generator_length 2 (by norm_num)]
    rfl
  have e2 : frame_generator 2 [5, 6, 7] = [[5, 6]] := by
    have h1 : (frame_generator 2 [5, 6, 7]).length = 1 := by
      rw [frame_generator_length 2 (by norm_num)]
      rfl
    obtain ⟨a, ha⟩ := List.length_eq_one.mp h1
    have h2 := frame_generator_flatten 2 [5, 6, 7]
    rw [ha] at h2 ⊢
    simp only [List.flatten_cons, List.flatten_nil, List.append_nil,
      List.length_singleton, Nat.mul_one] at h2
    rw [h2]
    rfl
  have e3 : frame_generator 2 [8] = [] := by
    have h1 : (frame_generator 2 [8]).length = 0 := by
      rw [frame_generator_length 2 (by norm_num)]
      rfl
    exact List.length_eq_zero.mp h1
  refine ⟨?_, ?_⟩
  · rw [e1]; decide
  · rw [e2, e3]; decide

/-- C2 (amended): for frame size `F > 0` and input of length `L`, one
call of the slicer yields `(L - 1) / F` full frames - `floor(L/F)` when
`F` does not divide `L`, one fewer when it does - each of exactly `F`
bytes, whose concatenation is a prefix of the input with no byte lost or
duplicated among the frames; on any non-empty input at least one trailing
byte (the remainder, 1 to F bytes) is never emitted, and since the slicer
holds no state between calls that remainder is discarded, not prepended
to the next chunk. -/
theorem C2_amended (n : Nat) (audio : List Nat) (hn : 0 < n) :
    (frame_generator n audio).length = (audio.length - 1) / n ∧
    (∀ fr ∈ frame_generator n audio, fr.length = n) ∧
    (frame_generator n audio).flatten =
      audio.take (n * (frame_generator n audio).length) ∧
    (audio ≠ [] → n * (frame_generator n audio).length < audio.length) :=
  ⟨frame_generator_length n hn audio, frame_generator_frames n audio,
   frame_generator_flatten n audio, frame_generator_lost n hn audio⟩

/-- Witness for C2 (amended) at frame size 2 and input [5,6,7]. -/
theorem C2_amended_witness :
    0 < 2 ∧
    ((frame_generator 2 [5, 6, 7]).length = (([5, 6, 7] : List Nat).length - 1) / 2 ∧
     (∀ fr ∈ frame_generator 2 [5, 6, 7], fr.length = 2) ∧
     (frame_generator 2 [5, 6, 7]).flatten =
       ([5, 6, 7] : List Nat).take (2 * (frame_generator 2 [5, 6, 7]).length) ∧
     (([5, 6, 7] : List Nat) ≠ [] →
       2 * (frame_generator 2 [5, 6, 7]).length < ([5, 6, 7] : List Nat).length)) :=
  ⟨by decide, C2_amended 2 [5, 6, 7] (by decide)⟩

/-- C3 counterexample: a single speech frame fed to the fresh 30-capacity
collector makes every frame currently held in the ring (one of one)
speech-classified - a held-frame fraction of 1 > 0.9 - yet the collector
does not trigger, because the code divides by the fixed capacity
`ring_buffer.maxlen`, not by the number of held frames. -/
theorem C3_counterexample :
    10 * (((vad_collector_step isSpeechHead init30 spFrame).1.ring.filter
        isSpeechHead).length) >
      9 * ((vad_collector_step isSpeechHead init30 spFrame).1.ring.length) ∧
    (vad_collector_step isSpeechHead init30 spFrame).1.triggered = false := by
  decide

/-- C3 (amended): in the untriggered state the incoming frame is first
appended to the ring buffer, and the transition to triggered occurs
exactly when, after that append, the number of speech-classified frames
in the ring strictly exceeds 0.9 times the ring's FIXED CAPACITY
(`ring_buffer.maxlen`), not 0.9 times the number of frames currently
held; on the transition all ring frames move to the voiced accumulator in
original order and the ring is cleared, otherwise the ring keeps the
appended frames and the accumulator is untouched; no segment is emitted
by an untriggered step. -/
theorem C3_amended (isSp : Frame → Bool) (s : CollectorState) (f : Frame)
    (h : s.triggered = false) :
    ((vad_collector_step isSp s f).1.triggered = true ↔
       10 * ((deque_append s.maxlen s.ring f).filter isSp).length > 9 * s.maxlen) ∧
    ((vad_collector_step isSp s f).1.triggered = true →
       (vad_collector_step isSp s f).1.voiced =
         s.voiced ++ deque_append s.maxlen s.ring f ∧
       (vad_collector_step isSp s f).1.ring = []) ∧
    ((vad_collector_step isSp s f).1.triggered = false →
       (vad_collector_step isSp s f).1.ring = deque_append s.maxlen s.ring f ∧
       (vad_collector_step isSp s f).1.voiced = s.voiced) ∧
    (vad_collector_step isSp s f).2 = none := by
  unfold vad_collector_step
  rw [h]
  dsimp only
  by_cases hc : 10 * ((deque_append s.maxlen s.ring f).filter isSp).length > 9 * s.maxlen
  · simp [hc]
  · simp [hc, h]

/-- Witness for C3 (amended) at the fresh 30-capacity collector and one
speech frame. -/
theorem C3_amended_witness :
    init30.triggered = false ∧
    (((vad_collector_step isSpeechHead init30 spFrame).1.triggered = true ↔
        10 * ((deque_append init30.maxlen init30.ring spFrame).filter
          isSpeechHead).length > 9 * init30.maxlen) ∧
     ((vad_collector_step isSpeechHead init30 spFrame).1.triggered = true →
        (vad_collector_step isSpeechHead init30 spFrame).1.voiced =
          init30.voiced ++ deque_append init30.maxlen init30.ring spFrame ∧
        (vad_collector_step isSpeechHead init30 spFrame).1.ring = []) ∧
     ((vad_collector_step isSpeechHead init30 spFrame).1.triggered = false →
        (vad_collector_step isSpeechHead init30 spFrame).1.ring =
          deque_append init30.maxlen init30.ring spFrame ∧
        (vad_collector_step isSpeechHead init30 spFrame).1.voiced = init30.voiced) ∧
     (vad_collector_step isSpeechHead init30 spFrame).2 = none) :=
  ⟨rfl, C3_amended isSpeechHead init30 spFrame rfl⟩

/-- C4: the code violates per-speaker isolation.  bot.py keeps one shared
`speaking_buffer` per sink: after speaker 1 writes the speech chunk
[1,1], speaker 2 writes the speech chunk [2,2] and then the silent chunk
[0], the sink emits a single utterance [1,1,2,2] attributed to speaker 2
that contains the byte 1, which arrived only in speaker 1's chunk and in
neither of speaker 2's chunks. -/
theorem C4_shared_buffer :
    (sinkRun chunkIsSpeech sink0 [([1, 1], 1), ([2, 2], 2), ([0], 2)]).2
      = [([1, 1, 2, 2], 2)] ∧
    (1 : Nat) ∈ [1, 1, 2, 2] ∧
    (1 : Nat) ∉ ([2, 2] ++ [0] : List Nat) := by
  decide

set_option maxRecDepth 4000 in
/-- C5 counterexample: with a 3-capacity collector, three speech frames
then a frame whose classification raises then three non-speech frames:
the code's write call dispatches NO segment (the exception aborts the
generator and the flush), while the claim's fail-safe semantics - the
failing frame read as non-speech, processing continuing - would dispatch
exactly one; so the failing frame is not treated as non-speech and the
subsequent frames' processing is skipped. -/
theorem C5_counterexample :
    writeB2 clsErr init3 (preC5 ++ errFrame :: postC5) = [] ∧
    writeFailSafe clsErr init3 (preC5 ++ errFrame :: postC5) ≠ [] := by
  decide

/-- C5 (amended): a classification failure is caught by the write
method's try/except and never raised to the caller, and segments yielded
before the failing frame are still dispatched; but the failing frame is
not reclassified as non-speech - it, every later frame of the same input,
and the end-of-input flush are all skipped: the call's output is exactly
the loop's output on the frames before the failure. -/
theorem C5_amended (cls : Frame → Except Unit Bool) (s : CollectorState)
    (pre post : List Frame) (f : Frame)
    (hring : ∀ g ∈ s.ring, isOkE (cls g) = true)
    (hpre : ∀ g ∈ pre, isOkE (cls g) = true)
    (hf : cls f = .error ()) :
    writeB2 cls s (pre ++ f :: post) =
      (vad_collector_run (clsToBool cls) s pre).2 := by
  have h1 := vadRunExc_append cls pre (f :: post) s hpre hring
  have h2 := vadRunExc_error cls (vad_collector_run (clsToBool cls) s pre).1 f post hf
  unfold writeB2
  rw [h1, h2]
  simp

/-- Witness for C5 (amended) at the concrete error-path run. -/
theorem C5_amended_witness :
    (∀ g ∈ init3.ring, isOkE (clsErr g) = true) ∧
    (∀ g ∈ preC5, isOkE (clsErr g) = true) ∧
    clsErr errFrame = .error () ∧
    writeB2 clsErr init3 (preC5 ++ errFrame :: postC5) =
      (vad_collector_run (clsToBool clsErr) init3 preC5).2 :=
  ⟨by decide, by decide, rfl,
   C5_amended clsErr init3 preC5 postC5 errFrame (by decide) (by decide) rfl⟩

/-- C6 counterexample: for 3 input samples at source rate 2 and target
rate 1 the exact duration-scaled count is 1.5, whose nearest integer is
2, but `_resample` computes `int(1.5) = 1` (all doubles involved are
exact here); so the output count is the truncation, not the rounding, of
`duration x target_rate`. -/
theorem C6_counterexample :
    (resample_target_length 3 2 1 : ℤ) ≠ round ((3 : ℚ) / 2 * 1) := by
  norm_num [resample_target_length, round_eq]

/-- C6 (amended): for positive source rate, the resampler's output sample
count is the floor (truncation toward zero of a non-negative value) of
the input duration times the target rate, `int(n / orig * target)`, not
its nearest integer. -/
theorem C6_amended (n origRate targetRate : Nat) (_h : 0 < origRate) :
    resample_target_length n origRate targetRate =
      ⌊(n : ℚ) / origRate * targetRate⌋₊ := by
  rw [div_mul_eq_mul_div, ← Nat.cast_mul, Nat.floor_div_eq_div]
  rfl

/-- Witness for C6 (amended) at 3 samples, source rate 2, target rate 1. -/
theorem C6_amended_witness :
    0 < 2 ∧
    resample_target_length 3 2 1 = ⌊((3 : Nat) : ℚ) / ((2 : Nat) : ℚ) * ((1 : Nat) : ℚ)⌋₊ :=
  ⟨by decide, C6_amended 3 2 1 (by decide)⟩

/-- C7 counterexample: in old.bot.py, `cleanup` with the non-empty
accumulator [[1,2]] emits the final segment [1,2] but leaves the buffer
untouched, so a second flush emits the same segment again instead of
nothing. -/
theorem C7_counterexample :
    (procCleanup ⟨[[1, 2]], 0, 30⟩).2 = some [1, 2] ∧
    (procCleanup (procCleanup ⟨[[1, 2]], 0, 30⟩).1).2 = some [1, 2] := by
  decide

/-- C7 (amended): flushing with an empty voiced accumulator emits no
segment, and flushing with a non-empty accumulator emits exactly one
final segment equal to the accumulator's concatenated frame bytes
regardless of the triggered state; but the flush does not clear the
buffers: old.bot.py's cleanup leaves the state unchanged, so a second
flush emits exactly what the first did (in bot2.py the flush is the
generator's last act and cannot recur). -/
theorem C7_amended (s : CollectorState) (t : ProcState) :
    (s.voiced = [] → vad_collector_flush s = none) ∧
    (s.voiced ≠ [] → vad_collector_flush s = some (joinBytes s.voiced)) ∧
    ((procCleanup t).2 = none ↔ t.audio_buffer = []) ∧
    (procCleanup t).1 = t ∧
    (procCleanup (procCleanup t).1).2 = (procCleanup t).2 := by
  unfold vad_collector_flush procCleanup
  by_cases hv : s.voiced = [] <;> by_cases hb : t.audio_buffer = [] <;>
    simp [hv, hb]

/-- Witness for C7 (amended) at a one-frame accumulator and a one-chunk
processor buffer. -/
theorem C7_amended_witness :
    vad_collector_flush
        { ring := [], maxlen := 30, triggered := true, voiced := [⟨[7]⟩] } =
      some (joinBytes [⟨[7]⟩]) ∧
    (procCleanup (procCleanup ⟨[[1]], 0, 30⟩).1).2 = (procCleanup ⟨[[1]], 0, 30⟩).2 :=
  ⟨(C7_amended { ring := [], maxlen := 30, triggered := true, voiced := [⟨[7]⟩] }
      ⟨[[1]], 0, 30⟩).2.1 (by decide),
   (C7_amended { ring := [], maxlen := 30, triggered := true, voiced := [⟨[7]⟩] }
      ⟨[[1]], 0, 30⟩).2.2.2.2⟩

/-- C8: in both collector states, starting from any state whose ring
respects the bound (in particular the initial empty ring), after
processing any sequence of classified frames the ring buffer never holds
more than the configured capacity `padding_duration_ms / frame_duration_ms`
frames, which the run leaves unchanged. -/
theorem C8_ring_bound (isSp : Frame → Bool) (s : CollectorState) (fs : List Frame)
    (h : s.ring.length ≤ s.maxlen) :
    ((vad_collector_run isSp s fs).1).ring.length ≤ s.maxlen ∧
    ((vad_collector_run isSp s fs).1).maxlen = s.maxlen :=
  ⟨run_ring_le isSp fs s h, run_maxlen isSp fs s⟩

/-- Witness for C8 at the configured collector and 40 speech frames. -/
theorem C8_ring_bound_witness :
    init30.ring.length ≤ init30.maxlen ∧
    (((vad_collector_run isSpeechHead init30 (List.replicate 40 spFrame)).1).ring.length
        ≤ init30.maxlen ∧
     ((vad_collector_run isSpeechHead init30 (List.replicate 40 spFrame)).1).maxlen
        = init30.maxlen) :=
  ⟨by decide, C8_ring_bound isSpeechHead init30 (List.replicate 40 spFrame) (by decide)⟩

/-- C9: feeding the 30-capacity collector 600 consecutive frames all
classified non-speech emits zero segments, including after the
end-of-stream flush, and after any number of such frames the collector is
still in the untriggered state. -/
theorem C9_all_nonspeech :
    vad_collector isSpeechHead init30 (List.replicate 600 nsFrame) = [] ∧
    ∀ k : Nat,
      (vad_collector_run isSpeechHead init30 (List.replicate k nsFrame)).1.triggered
        = false := by
  have key : ∀ k : Nat,
      (vad_collector_run isSpeechHead init30 (List.replicate k nsFrame)).1.triggered
          = false ∧
      (vad_collector_run isSpeechHead init30 (List.replicate k nsFrame)).1.voiced
          = init30.voiced ∧
      (vad_collector_run isSpeechHead init30 (List.replicate k nsFrame)).2 = [] := by
    intro k
    have h := run_all_nonspeech isSpeechHead (List.replicate k nsFrame) init30 rfl
      (fun g hg => by rw [List.eq_of_mem_replicate hg]; rfl)
      (fun g hg => absurd hg (List.not_mem_nil g))
    exact ⟨h.1, h.2.1, h.2.2.1⟩
  have hv : (vad_collector_run isSpeechHead init30
      (List.replicate 600 nsFrame)).1.voiced = [] := (key 600).2.1
  have hf : vad_collector_flush
      (vad_collector_run isSpeechHead init30 (List.replicate 600 nsFrame)).1 = none := by
    unfold vad_collector_flush
    rw [hv]
    rfl
  refine ⟨?_, fun k => (key k).1⟩
  unfold vad_collector
  rw [(key 600).2.2, hf]
  rfl

/-- C10: for every configuration value, dot-separated path and default,
`Config.get` returns the stored value exactly when every key of the path
resolves through nested dictionaries and the supplied default otherwise;
the embedding is a total function - the only exceptions the traversal can
raise, `KeyError` for a missing key and `TypeError` for a non-dict
intermediate, are the ones the except clause catches - and it reads the
configuration without modifying it. -/
theorem C10_config_get (cfg : JValue) (path : String) (dflt : JValue) :
    Config.get cfg path dflt = (resolves cfg (path.splitOn ".")).getD dflt := by
  unfold Config.get
  exact getPath_resolves dflt (path.splitOn ".") cfg
